import Mathlib

/-!
Verification of PyModuleSnooper (`sitecustomize.py`): a shallow embedding of
the module, followed by theorems settling the frozen claims about it.

The embedding models the process state the module reads (environment
variables, `sys.modules`, the wall clock, hostname, pid, `sys.executable`,
`sys.path`) as explicit data, and models the side effects the module
performs (umask change, directory creation, file opening, the single write)
as an explicit trace of effects.  Fallible filesystem operations are
modelled by an oracle saying which paths fail; the embedded
`inspect_and_log` returns the trace of effects performed together with the
exception escaping to the caller, if any (the source has no handler).
-/

namespace PyModuleSnooper

/-- A process environment: an association list from variable name to value.
`os.environ` lookup takes the first binding of a key. -/
abbrev Env : Type := List (String × String)

/-- `os.environ.get(k)` / `os.environ.get(k, default)` with the default
handled at each use site: `none` when the variable is absent. -/
def envGet (env : Env) (k : String) : Option String :=
  (List.find? (fun kv => kv.1 == k) env).map (·.2)

/-- Line 89 / line 100: `os.environ.get('DISABLE_PYMODULE_SNOOP', False)`
used in boolean context.  Python truthiness of the result: the default
`False` (variable absent) is falsy, and a string is truthy exactly when it
is non-empty. -/
def snoopDisabled (env : Env) : Bool :=
  match envGet env "DISABLE_PYMODULE_SNOOP" with
  | none => false
  | some v => v != ""

/-- Lines 100-101: the module-import-time registration of the shutdown
callback happens iff the disable toggle is not truthy at import time. -/
def registersAtImport (env : Env) : Bool :=
  !snoopDisabled env

/-- The state of the optional MPI runtime object `mpi4py.MPI` as seen
through the three queries the source makes: `MPI.Is_finalized()`,
`MPI.Is_initialized()` (spelled `isInit` here) and
`MPI.COMM_WORLD.Get_rank()`. -/
structure MPIRuntime where
  finalized : Bool
  isInit : Bool
  rank : Nat
deriving DecidableEq, Repr

/-- What `is_mpi_rank_nonzero` observes: whether `'mpi4py' in sys.modules`,
whether that module has an `MPI` attribute, and the runtime behind that
attribute when both hold. -/
structure MPIState where
  mpi4pyLoaded : Bool
  hasMPIAttr : Bool
  runtime : MPIRuntime
deriving DecidableEq, Repr

/-- Lines 69-84, `is_mpi_rank_nonzero`: `False` if not using mpi4py, or MPI
has been finalized, or MPI has not been initialized, or rank is 0;
otherwise `True` iff rank > 0.  The embedding is a total function: the
source guards the `sys.modules` lookup with `in` and the attribute access
with `hasattr`, so no lookup can raise. -/
def is_mpi_rank_nonzero (s : MPIState) : Bool :=
  let MPIobj : Option MPIRuntime :=
    if s.mpi4pyLoaded then
      if s.hasMPIAttr then some s.runtime else none
    else none
  match MPIobj with
  | none => false
  | some M =>
    if M.finalized then false
    else if !M.isInit then false
    else decide (M.rank > 0)

end PyModuleSnooper

namespace PyModuleSnooper

/-- A loaded module as `inspect_and_log` observes it: `file = none` models a
module with no `__file__` attribute; `file = some v` a module whose
`__file__` attribute holds `v`, where `v : Option String` is `none` for the
Python value `None` (namespace packages) and `some p` for a path string. -/
structure PyModule where
  file : Option (Option String)
deriving DecidableEq, Repr

/-- Lines 93-97: the comprehension
`{name : module.__file__ for name, module in sys.modules.items() if hasattr(module, '__file__')}`.
The test is attribute *presence* only; the attribute's value is kept as is,
`None` included. -/
def modules_dict (mods : List (String × PyModule)) : List (String × Option String) :=
  mods.filterMap (fun nm => nm.2.file.map (fun v => (nm.1, v)))

/-- `startsWithL p s`: `true` iff `p` is an initial segment of `s`. -/
def startsWithL : List Char → List Char → Bool
  | [], _ => true
  | _ :: _, [] => false
  | p :: ps, c :: cs => (p == c) && startsWithL ps cs

/-- Python's `s.startswith(p)`. -/
def pyStartsWith (s p : String) : Bool :=
  startsWithL p.data s.data

/-- Python's `s.endswith(p)`: `p` reversed is an initial segment of `s`
reversed. -/
def pyEndsWith (s p : String) : Bool :=
  startsWithL p.data.reverse s.data.reverse

/-- One step of `posixpath.join`: an absolute second component discards
everything before it; no separator is inserted after an empty path or a
path already ending in the separator; otherwise the separator is inserted.
`os.path.join(a, b, c, ...)` is the left fold of this step. -/
def ospath_join (a b : String) : String :=
  if pyStartsWith b "/" = true then b
  else if ((a == "") || pyEndsWith a "/") = true then a ++ b
  else a ++ "/" ++ b

/-- Lines 39-43: `{k:v for k,v in os.environ.items() if k.startswith('COBALT')}`. -/
def cobalt_envs (env : Env) : Env :=
  env.filter (fun kv => pyStartsWith kv.1 "COBALT")

/-- The wall-clock instant `datetime.now()` returns, broken into the fields
the source formats. -/
structure Timestamp where
  year : Nat
  month : Nat
  day : Nat
  hour : Nat
  minute : Nat
  second : Nat
  micro : Nat
deriving DecidableEq, Repr

/-- Zero-pad the decimal rendering of `n` on the left to width `w`, as the
zero-padded `strftime` directives do. -/
def padZeros (w : Nat) (n : Nat) : String :=
  ⟨List.replicate (w - (toString n).length) '0'⟩ ++ toString n

/-- `strftime('%m-%d-%Y %H:%M:%S.%f')` (the source's `DATETIME_FMT`):
month, day, hour, minute, second zero-padded to two digits, microseconds
to six, year unpadded (four digits for all realistic years). -/
def strftime_datetime (t : Timestamp) : String :=
  padZeros 2 t.month ++ "-" ++ padZeros 2 t.day ++ "-" ++ toString t.year ++ " " ++
  padZeros 2 t.hour ++ ":" ++ padZeros 2 t.minute ++ ":" ++ padZeros 2 t.second ++
  "." ++ padZeros 6 t.micro

/-- `now.strftime('%H.%M.%S.%f')` from line 56: the time-of-day part of the
log filename. -/
def strftime_hms (t : Timestamp) : String :=
  padZeros 2 t.hour ++ "." ++ padZeros 2 t.minute ++ "." ++ padZeros 2 t.second ++
  "." ++ padZeros 6 t.micro

/-- Line 29: `os.path.join('/projects', 'datascience', 'PyModuleSnooper', 'log')`. -/
def LOGFILE_ROOT : String := "/projects/datascience/PyModuleSnooper/log"

/-- Line 51: `os.environ.get('COBALT_JOBID', 'no-ID')`. -/
def job_id (env : Env) : String :=
  (envGet env "COBALT_JOBID").getD "no-ID"

/-- Lines 50-52: `os.path.join(LOGFILE_ROOT, year, month, day, job_id)`
with `year, month, day = map(str, (now.year, now.month, now.day))` —
`str` of an int is the unpadded decimal rendering, as `toString` is here;
the join is `posixpath.join`'s left fold, absolute-component restart and
no-double-separator rule included. -/
def log_dir (t : Timestamp) (env : Env) : String :=
  ospath_join (ospath_join (ospath_join (ospath_join LOGFILE_ROOT
    (toString t.year)) (toString t.month)) (toString t.day)) (job_id env)

/-- Lines 55-57: `'{}.{}.{}'.format(socket.gethostname(), os.getpid(),
now.strftime('%H.%M.%S.%f'))`. -/
def fname (host : String) (pid : Nat) (t : Timestamp) : String :=
  host ++ "." ++ toString pid ++ "." ++ strftime_hms t

/-- Line 58: `os.path.join(log_dir, fname)`. -/
def log_path (t : Timestamp) (env : Env) (host : String) (pid : Nat) : String :=
  ospath_join (log_dir t env) (fname host pid t)

/-- Line 91: the mask passed to `os.umask` — octal `0o002`. -/
def UMASK : Nat := 2

/-- POSIX file-creation semantics: the mode of a created file or directory
is the requested mode with the umask's bits cleared (`mode & ~mask`,
complement taken over the 12 permission bits). -/
def applyUmask (mask mode : Nat) : Nat :=
  mode &&& (4095 ^^^ mask)

/-- The mode of each directory `os.makedirs` creates under umask `0o002`:
the requested default `0o777` with the mask's bits cleared. -/
def dirMode : Nat := applyUmask UMASK 0o777

/-- The mode of the log file the `FileHandler` creates under umask `0o002`:
the requested default `0o666` with the mask's bits cleared. -/
def fileMode : Nat := applyUmask UMASK 0o666

/-- The group-write permission bit, octal `0o020`. -/
def groupWriteBit : Nat := 0o020

/-- The other-write permission bit, octal `0o002`. -/
def otherWriteBit : Nat := 0o002

/-! ### JSON serialization

`json.dumps` with its defaults: `ensure_ascii=True` (every character below
`0x20` or above `0x7e` is escaped), item separator `", "`, key separator
`": "`, insertion-ordered keys, no sorting.  The source only ever
serializes one fixed shape — a top-level object whose values are strings,
a list of strings, and two string-keyed objects whose values are strings
or `None` — so the renderer is written for exactly that shape. -/

/-- The lowercase hexadecimal digit for `n < 16` (as CPython's
`json.encoder` emits in `\uXXXX` escapes). -/
def hexDigit (n : Nat) : Char :=
  if n < 10 then Char.ofNat (48 + n) else Char.ofNat (87 + n)

/-- The four hex digits of `n % 0x10000`, most significant first. -/
def hex4 (n : Nat) : List Char :=
  [hexDigit (n / 4096 % 16), hexDigit (n / 256 % 16), hexDigit (n / 16 % 16),
   hexDigit (n % 16)]

/-- A `\uXXXX` escape. -/
def uEsc (n : Nat) : List Char :=
  '\\' :: 'u' :: hex4 n

/-- How `json.dumps` (with `ensure_ascii=True`) emits one character of a
string: the two-character escapes for `"`, `\`, and the control characters
with short names; `\uXXXX` for every other character outside the printable
ASCII range `0x20..0x7e`, with a surrogate pair for characters beyond the
Basic Multilingual Plane; the character itself otherwise. -/
def escChar (c : Char) : List Char :=
  if c = '"' then ['\\', '"']
  else if c = '\\' then ['\\', '\\']
  else if c = '\n' then ['\\', 'n']
  else if c = '\r' then ['\\', 'r']
  else if c = '\t' then ['\\', 't']
  else if c.toNat = 8 then ['\\', 'b']
  else if c.toNat = 12 then ['\\', 'f']
  else if c.toNat < 32 then uEsc c.toNat
  else if c.toNat < 127 then [c]
  else if c.toNat < 65536 then uEsc c.toNat
  else uEsc (55296 + (c.toNat - 65536) / 1024) ++ uEsc (56320 + (c.toNat - 65536) % 1024)

/-- `escChar` applied to every character of a list, concatenated. -/
def escList : List Char → List Char
  | [] => []
  | c :: cs => escChar c ++ escList cs

/-- A serialized JSON string: opening quote, escaped characters, closing
quote. -/
def renderString (s : String) : List Char :=
  '"' :: escList s.data ++ ['"']

/-- A serialized atom of the record: a string, or Python `None` as `null`. -/
def renderAtom : Option String → List Char
  | none => ['n', 'u', 'l', 'l']
  | some s => renderString s

/-- Join serialized items with `json.dumps`'s default item separator `", "`. -/
def joinComma : List (List Char) → List Char
  | [] => []
  | [x] => x
  | x :: xs => x ++ ',' :: ' ' :: joinComma xs

/-- One `key: value` member, with `json.dumps`'s default key separator `": "`. -/
def renderMember (k : String) (v : List Char) : List Char :=
  renderString k ++ ':' :: ' ' :: v

/-- A serialized list of strings. -/
def renderStrList (xs : List String) : List Char :=
  '[' :: joinComma (xs.map renderString) ++ [']']

/-- A serialized string-keyed object whose values are strings or `None`,
keys in insertion order. -/
def renderObj (kvs : List (String × Option String)) : List Char :=
  '{' :: joinComma (kvs.map (fun kv => renderMember kv.1 (renderAtom kv.2))) ++ ['}']

/-- The `self._info` dict at the moment `log_modules` serializes it: the
four metadata fields inserted on lines 35-43 plus the `modules` mapping
added on line 66, in insertion order. -/
structure LogRecord where
  timestamp : String
  executable : String
  searchPath : List String
  cobaltEnvs : List (String × String)
  modules : List (String × Option String)
deriving DecidableEq, Repr

/-- The record's members in insertion order, each key as the source spells
it, each value serialized. -/
def recordMembers (r : LogRecord) : List (String × List Char) :=
  [("timestamp", renderString r.timestamp),
   ("sys.executable", renderString r.executable),
   ("sys.path", renderStrList r.searchPath),
   ("cobalt_envs", renderObj (r.cobaltEnvs.map (fun kv => (kv.1, some kv.2)))),
   ("modules", renderObj r.modules)]

/-- Line 67: `json.dumps(self._info)` — the serialized record, a single
JSON object. -/
def json_dumps_info (r : LogRecord) : List Char :=
  '{' :: joinComma ((recordMembers r).map (fun kv => renderMember kv.1 kv.2)) ++ ['}']

/-! ### The collector as a function on process state -/

/-- Everything the callback reads from the process: the environment at
callback time, the observable MPI state, `sys.modules`, `datetime.now()`,
`socket.gethostname()`, `os.getpid()`, `sys.executable` and `sys.path`. -/
structure ProcState where
  env : Env
  mpi : MPIState
  modules : List (String × PyModule)
  time : Timestamp
  hostname : String
  pid : Nat
  executable : String
  searchPath : List String

/-- Which filesystem operations fail: an oracle saying whether
`os.makedirs` raises at a given path (`exist_ok=True` still raises on
permission or quota errors) and whether opening a given path for append
raises. -/
structure FS where
  makedirsFails : String → Bool
  openFails : String → Bool

/-- An exception escaping a filesystem call, carrying the path. -/
inductive PyError where
  | osError (path : String)
deriving DecidableEq, Repr

/-- One observable side effect of the callback, in order of occurrence.
`makedirs` and `openFile` carry the permission mode the created directory
or file ends up with, per `applyUmask` and the umask in force. -/
inductive Effect where
  | setUmask (mask : Nat)
  | makedirs (path : String) (mode : Nat)
  | openFile (path : String) (mode : Nat)
  | write (path : String) (content : String)
deriving DecidableEq, Repr

/-- The `self._info` dict (lines 35-43) merged with the `modules` mapping
(line 66) for a given process state. -/
def infoRecord (st : ProcState) : LogRecord :=
  { timestamp := strftime_datetime st.time
    executable := st.executable
    searchPath := st.searchPath
    cobaltEnvs := cobalt_envs st.env
    modules := modules_dict st.modules }

/-- The bytes `logger.info(json.dumps(self._info))` appends to the log
file: the serialized record followed by the `StreamHandler` terminator,
one newline. -/
def logLine (st : ProcState) : String :=
  ⟨json_dumps_info (infoRecord st) ++ ['\n']⟩

/-- Lines 86-98, `inspect_and_log`, together with the body of
`DictLogger.__init__` it calls: returns the effects performed in order and
the exception escaping to the caller, if any.  The source order is: the
rank check (line 88), the toggle check (line 89), `os.umask(0o002)`
(line 91), then inside `DictLogger()` the metadata snapshot (pure),
`os.makedirs` (line 53) and the `FileHandler` open (line 59, eager by
default), then the single write via `log_modules` (lines 65-67).  No step
is guarded by a handler, so a failing `makedirs` or open escapes after the
effects already performed. -/
def inspect_and_log (st : ProcState) (fs : FS) : List Effect × Option PyError :=
  if is_mpi_rank_nonzero st.mpi then ([], none)
  else if snoopDisabled st.env then ([], none)
  else
    let dir := log_dir st.time st.env
    let path := log_path st.time st.env st.hostname st.pid
    if fs.makedirsFails dir then
      ([Effect.setUmask UMASK], some (PyError.osError dir))
    else if fs.openFails path then
      ([Effect.setUmask UMASK, Effect.makedirs dir dirMode],
       some (PyError.osError path))
    else
      ([Effect.setUmask UMASK, Effect.makedirs dir dirMode,
        Effect.openFile path fileMode, Effect.write path (logLine st)], none)

/-- The write effects of a trace, in order, as (path, content) pairs. -/
def writesOf : List Effect → List (String × String)
  | [] => []
  | Effect.write p c :: rest => (p, c) :: writesOf rest
  | _ :: rest => writesOf rest

/-- The permission modes of the directories and files a trace creates, in
order. -/
def creationModes : List Effect → List Nat
  | [] => []
  | Effect.makedirs _ m :: rest => m :: creationModes rest
  | Effect.openFile _ m :: rest => m :: creationModes rest
  | _ :: rest => creationModes rest

/-- `true` iff the effect creates a directory or a file. -/
def isCreation : Effect → Bool
  | Effect.makedirs _ _ => true
  | Effect.openFile _ _ => true
  | _ => false

/-- `true` iff every directory- or file-creating effect of the trace is
preceded by a `setUmask`; `seen` records whether one has occurred already. -/
def creationsAfterUmask (seen : Bool) : List Effect → Bool
  | [] => true
  | Effect.setUmask _ :: rest => creationsAfterUmask true rest
  | e :: rest => (!isCreation e || seen) && creationsAfterUmask seen rest

/-! ### A JSON grammar

A character-level grammar for JSON texts, used to state that the written
line is parseable by a standard JSON parser.  It is a sound restriction of
RFC 8259: strings may use any of the standard escapes, and the only
whitespace admitted is the single space after `,` and `:` that
`json.dumps`'s default separators emit — every word of this grammar is a
valid JSON text. -/

/-- `true` iff `c` is a lowercase hexadecimal digit character. -/
def isHexChar (c : Char) : Bool :=
  (48 ≤ c.toNat && c.toNat ≤ 57) || (97 ≤ c.toNat && c.toNat ≤ 102)

/-- The body of a JSON string literal: raw characters (no quote, no
backslash, no control character), short escapes, and `\uXXXX` escapes. -/
inductive JStr : List Char → Prop where
  | nil : JStr []
  | raw (c : Char) (cs : List Char) : 32 ≤ c.toNat → c ≠ '"' → c ≠ '\\' →
      JStr cs → JStr (c :: cs)
  | esc (c : Char) (cs : List Char) :
      c = '"' ∨ c = '\\' ∨ c = '/' ∨ c = 'b' ∨ c = 'f' ∨ c = 'n' ∨ c = 'r' ∨ c = 't' →
      JStr cs → JStr ('\\' :: c :: cs)
  | uni (h1 h2 h3 h4 : Char) (cs : List Char) :
      isHexChar h1 = true → isHexChar h2 = true → isHexChar h3 = true →
      isHexChar h4 = true → JStr cs → JStr ('\\' :: 'u' :: h1 :: h2 :: h3 :: h4 :: cs)

mutual

/-- A JSON value of the fragment the record uses: `null`, strings, arrays,
objects. -/
inductive JVal : List Char → Prop where
  | null : JVal ['n', 'u', 'l', 'l']
  | str (cs : List Char) : JStr cs → JVal ('"' :: cs ++ ['"'])
  | arrEmpty : JVal ['[', ']']
  | arr (cs : List Char) : JItems cs → JVal ('[' :: cs ++ [']'])
  | objEmpty : JVal ['{', '}']
  | obj (cs : List Char) : JMembs cs → JVal ('{' :: cs ++ ['}'])

/-- A non-empty `", "`-separated sequence of JSON values. -/
inductive JItems : List Char → Prop where
  | single (cs : List Char) : JVal cs → JItems cs
  | cons (v rest : List Char) : JVal v → JItems rest →
      JItems (v ++ ',' :: ' ' :: rest)

/-- A non-empty `", "`-separated sequence of `"key": value` members. -/
inductive JMembs : List Char → Prop where
  | single (k v : List Char) : JStr k → JVal v →
      JMembs ('"' :: k ++ '"' :: ':' :: ' ' :: v)
  | cons (k v rest : List Char) : JStr k → JVal v → JMembs rest →
      JMembs ('"' :: k ++ '"' :: ':' :: ' ' :: v ++ ',' :: ' ' :: rest)

end

/-! ### Concrete states for witnesses and counterexamples -/

/-- An MPI state where mpi4py was never imported. -/
def mpiAbsent : MPIState :=
  { mpi4pyLoaded := false, hasMPIAttr := false
    runtime := { finalized := false, isInit := false, rank := 0 } }

/-- A concrete process state: the spec's example scenario (job id `12345`,
host `node07`, pid 4242, shutdown at 2024-03-01 10:15:22.123456), with a
module whose path contains a newline and a quote, a module with
`__file__ = None`, and one with no `__file__` attribute. -/
def sampleState : ProcState :=
  { env := [("PATH", "/usr/bin"), ("COBALT_JOBID", "12345")]
    mpi := mpiAbsent
    modules :=
      [("__main__", { file := some (some "/home/u\ns\"er/main.py") }),
       ("nspkg", { file := some none }),
       ("builtinmod", { file := none })]
    time := { year := 2024, month := 3, day := 1, hour := 10, minute := 15,
              second := 22, micro := 123456 }
    hostname := "node07"
    pid := 4242
    executable := "/usr/bin/python3"
    searchPath := ["", "/usr/lib/python3.10"] }

/-- A filesystem where every operation succeeds. -/
def okFS : FS :=
  { makedirsFails := fun _ => false, openFails := fun _ => false }

/-- A filesystem where every `makedirs` raises (an unwritable log root). -/
def makedirsFailFS : FS :=
  { makedirsFails := fun _ => true, openFails := fun _ => false }

/-- The sample state with the disable toggle set to the non-empty string
`"0"`. -/
def disabledState : ProcState :=
  { sampleState with env := [("DISABLE_PYMODULE_SNOOP", "0")] }

/-- The sample state with the disable toggle set to the empty string. -/
def emptyToggleState : ProcState :=
  { sampleState with env := [("DISABLE_PYMODULE_SNOOP", "")] }

/-- The destination path as the spec words it:
`<log root>/<year>/<month>/<day>/<job id>/<hostname>.<pid>.<HH.MM.SS.microseconds>`
with year, month, day rendered as unpadded decimal numbers (`toString` on
`Nat`), the filename's fields joined by `.`, and the time-of-day fields
zero-padded as `strftime` pads them. -/
def specLogPath (root : String) (t : Timestamp) (jobid host : String) (pid : Nat) :
    String :=
  root ++ "/" ++ toString t.year ++ "/" ++ toString t.month ++ "/" ++
  toString t.day ++ "/" ++ jobid ++ "/" ++ host ++ "." ++ toString pid ++ "." ++
  padZeros 2 t.hour ++ "." ++ padZeros 2 t.minute ++ "." ++ padZeros 2 t.second ++
  "." ++ padZeros 6 t.micro

/-! ### Lemmas about `os.path.join` and decimal components

The year/month/day components are non-empty digit strings, so the joins
that build `log_dir` insert exactly one separator each; the job-id and
filename components can trigger `posixpath.join`'s absolute-restart and
no-double-separator cases, which the C5 theorems account for. -/

/-- `Nat.digitChar` below 10 yields a digit character. -/
theorem digitChar_isDigit (n : Nat) (h : n < 10) : (Nat.digitChar n).isDigit = true := by
  interval_cases n <;> decide

/-- Every character `Nat.toDigitsCore` at base 10 produces, starting from
an all-digit accumulator, is a digit. -/
theorem toDigitsCore_digits (fuel : Nat) : ∀ (n : Nat) (acc : List Char),
    (∀ c ∈ acc, c.isDigit = true) →
    ∀ c ∈ Nat.toDigitsCore 10 fuel n acc, c.isDigit = true := by
  induction fuel with
  | zero =>
    intro n acc hacc c hc
    exact hacc c hc
  | succ fuel ih =>
    intro n acc hacc c hc
    have step : Nat.toDigitsCore 10 (fuel + 1) n acc =
        (if n / 10 = 0 then Nat.digitChar (n % 10) :: acc
         else Nat.toDigitsCore 10 fuel (n / 10) (Nat.digitChar (n % 10) :: acc)) := rfl
    rw [step] at hc
    have hnext : ∀ d ∈ Nat.digitChar (n % 10) :: acc, d.isDigit = true := by
      intro d hd
      rcases List.mem_cons.mp hd with rfl | hd
      · exact digitChar_isDigit _ (Nat.mod_lt _ (by norm_num))
      · exact hacc d hd
    by_cases h0 : n / 10 = 0
    · rw [if_pos h0] at hc
      exact hnext c hc
    · rw [if_neg h0] at hc
      exact ih (n / 10) _ hnext c hc

/-- `toDigitsCore` never empties a non-empty accumulator. -/
theorem toDigitsCore_ne_nil (fuel : Nat) : ∀ (n : Nat) (acc : List Char),
    acc ≠ [] → Nat.toDigitsCore 10 fuel n acc ≠ [] := by
  induction fuel with
  | zero =>
    intro n acc hacc
    exact hacc
  | succ fuel ih =>
    intro n acc hacc
    have step : Nat.toDigitsCore 10 (fuel + 1) n acc =
        (if n / 10 = 0 then Nat.digitChar (n % 10) :: acc
         else Nat.toDigitsCore 10 fuel (n / 10) (Nat.digitChar (n % 10) :: acc)) := rfl
    rw [step]
    by_cases h0 : n / 10 = 0
    · rw [if_pos h0]
      simp
    · rw [if_neg h0]
      exact ih (n / 10) _ (by simp)

/-- `str` of a natural number is a non-empty string of digit characters. -/
theorem toString_nat_digits (n : Nat) :
    (toString n).data ≠ [] ∧ ∀ c ∈ (toString n).data, c.isDigit = true := by
  have hd : (toString n).data = Nat.toDigitsCore 10 (n + 1) n [] := rfl
  rw [hd]
  constructor
  · have step : Nat.toDigitsCore 10 (n + 1) n [] =
        (if n / 10 = 0 then [Nat.digitChar (n % 10)]
         else Nat.toDigitsCore 10 n (n / 10) [Nat.digitChar (n % 10)]) := rfl
    rw [step]
    by_cases h0 : n / 10 = 0
    · rw [if_pos h0]
      simp
    · rw [if_neg h0]
      exact toDigitsCore_ne_nil n (n / 10) _ (by simp)
  · exact toDigitsCore_digits (n + 1) n [] (by simp)

/-- The separator is not a digit character. -/
theorem slash_beq_digit_false {c : Char} (h : c.isDigit = true) : ('/' == c) = false := by
  by_cases hc : c = '/'
  · subst hc
    exact absurd h (by decide)
  · exact beq_eq_false_iff_ne.mpr (fun he => hc he.symm)

/-- Matching the single-character pattern `/` looks only at the head. -/
theorem startsWithL_slash_cons (c : Char) (cs : List Char) :
    startsWithL ['/'] (c :: cs) = ('/' == c) := by
  simp [startsWithL]

/-- A non-empty all-digit character list does not start with `/`. -/
theorem startsWithL_slash_digits {l : List Char} (hne : l ≠ [])
    (h : ∀ c ∈ l, c.isDigit = true) : startsWithL ['/'] l = false := by
  cases l with
  | nil => exact absurd rfl hne
  | cons c cs =>
    rw [startsWithL_slash_cons]
    exact slash_beq_digit_false (h c (by simp))

/-- A string with non-empty data is not `==`-equal to the empty string. -/
theorem beq_empty_false_of_data {a : String} (h : a.data ≠ []) : (a == "") = false := by
  rcases Bool.eq_false_or_eq_true (a == "") with hb | hb
  · exact absurd (congrArg String.data (eq_of_beq hb)) (by simpa using h)
  · exact hb

/-- A string `==`-different from the empty string has non-empty data. -/
theorem data_ne_nil_of_beq_empty {a : String} (h : (a == "") = false) :
    a.data ≠ [] := by
  intro hd
  obtain ⟨l⟩ := a
  simp only at hd
  subst hd
  exact absurd h (by decide)

/-- `str(n)` neither starts nor ends with the separator and is non-empty. -/
theorem nat_component_ok (n : Nat) :
    pyStartsWith (toString n) "/" = false ∧ pyEndsWith (toString n) "/" = false ∧
    ((toString n) == "") = false := by
  obtain ⟨hne, hdig⟩ := toString_nat_digits n
  refine ⟨?_, ?_, beq_empty_false_of_data hne⟩
  · show startsWithL ("/" : String).data (toString n).data = false
    exact startsWithL_slash_digits hne hdig
  · show startsWithL ("/" : String).data.reverse (toString n).data.reverse = false
    refine startsWithL_slash_digits (by simpa using hne) ?_
    intro c hc
    exact hdig c (List.mem_reverse.mp hc)

/-- Whether an appended string ends in `/` is decided by its non-empty
second part. -/
theorem pyEndsWith_append_slash (a b : String) (hb : b.data ≠ []) :
    pyEndsWith (a ++ b) "/" = pyEndsWith b "/" := by
  show startsWithL ['/'] (a ++ b).data.reverse = startsWithL ['/'] b.data.reverse
  rw [String.data_append, List.reverse_append]
  rcases hr : b.data.reverse with _ | ⟨c, cs⟩
  · exact absurd (by simpa using hr) hb
  · rw [List.cons_append, startsWithL_slash_cons, startsWithL_slash_cons]

/-- The normal case of `posixpath.join`: a relative second component after
a non-empty path not ending in the separator gets exactly one separator. -/
theorem ospath_join_normal (a b : String) (h1 : pyStartsWith b "/" = false)
    (h2 : (a == "") = false) (h3 : pyEndsWith a "/" = false) :
    ospath_join a b = a ++ "/" ++ b := by
  simp [ospath_join, h1, h2, h3]

/-- The filename never starts with the separator when the hostname does
not: its first character is the hostname's first character, or `.` when
the hostname is empty. -/
theorem fname_not_abs (host : String) (pid : Nat) (t : Timestamp)
    (h : pyStartsWith host "/" = false) :
    pyStartsWith (fname host pid t) "/" = false := by
  show startsWithL ['/'] (fname host pid t).data = false
  have hfd : (fname host pid t).data =
      host.data ++ ('.' :: ((toString pid).data ++
        ('.' :: (strftime_hms t).data))) := by
    simp [fname, String.data_append]
  rw [hfd]
  rcases hh : host.data with _ | ⟨c, cs⟩
  · rw [List.nil_append, startsWithL_slash_cons]
    decide
  · rw [List.cons_append, startsWithL_slash_cons]
    have h' : startsWithL ['/'] host.data = false := h
    rw [hh, startsWithL_slash_cons] at h'
    exact h'

/-- `log_dir` with a relative job id is the plain `/`-joined layout (the
date components are digit strings, so no earlier join can restart or drop
a separator). -/
theorem log_dir_eq (t : Timestamp) (env : Env)
    (h1 : pyStartsWith (job_id env) "/" = false) :
    log_dir t env = LOGFILE_ROOT ++ "/" ++ toString t.year ++ "/" ++
      toString t.month ++ "/" ++ toString t.day ++ "/" ++ job_id env := by
  obtain ⟨hy1, hy2, hy3⟩ := nat_component_ok t.year
  obtain ⟨hm1, hm2, hm3⟩ := nat_component_ok t.month
  obtain ⟨hd1, hd2, hd3⟩ := nat_component_ok t.day
  have hry : (toString t.year).data ≠ [] := data_ne_nil_of_beq_empty hy3
  have hrm : (toString t.month).data ≠ [] := data_ne_nil_of_beq_empty hm3
  have hrd : (toString t.day).data ≠ [] := data_ne_nil_of_beq_empty hd3
  have ne2 : ∀ a b : String, ((a ++ "/" ++ b) == "") = false := by
    intro a b
    refine beq_empty_false_of_data ?_
    rw [String.data_append, String.data_append]
    exact List.append_ne_nil_of_left_ne_nil
      (List.append_ne_nil_of_right_ne_nil _ (by decide)) _
  have e1 : ospath_join LOGFILE_ROOT (toString t.year) =
      LOGFILE_ROOT ++ "/" ++ toString t.year :=
    ospath_join_normal _ _ hy1 (by decide) (by decide)
  have e2 : ospath_join (LOGFILE_ROOT ++ "/" ++ toString t.year) (toString t.month) =
      LOGFILE_ROOT ++ "/" ++ toString t.year ++ "/" ++ toString t.month :=
    ospath_join_normal _ _ hm1 (ne2 _ _) (by rw [pyEndsWith_append_slash _ _ hry]; exact hy2)
  have e3 : ospath_join (LOGFILE_ROOT ++ "/" ++ toString t.year ++ "/" ++
      toString t.month) (toString t.day) = LOGFILE_ROOT ++ "/" ++ toString t.year ++
      "/" ++ toString t.month ++ "/" ++ toString t.day :=
    ospath_join_normal _ _ hd1 (ne2 _ _) (by rw [pyEndsWith_append_slash _ _ hrm]; exact hm2)
  have e4 : ospath_join (LOGFILE_ROOT ++ "/" ++ toString t.year ++ "/" ++
      toString t.month ++ "/" ++ toString t.day) (job_id env) =
      LOGFILE_ROOT ++ "/" ++ toString t.year ++ "/" ++ toString t.month ++ "/" ++
      toString t.day ++ "/" ++ job_id env :=
    ospath_join_normal _ _ h1 (ne2 _ _) (by rw [pyEndsWith_append_slash _ _ hrd]; exact hd2)
  show ospath_join (ospath_join (ospath_join (ospath_join LOGFILE_ROOT
    (toString t.year)) (toString t.month)) (toString t.day)) (job_id env) = _
  rw [e1, e2, e3, e4]

/-! ### Lemmas about the JSON serialization

The serialized record is a word of the JSON grammar above, and contains no
newline character. -/

/-- Appending preserves string-body membership in the grammar. -/
theorem JStr_append {a b : List Char} (ha : JStr a) (hb : JStr b) : JStr (a ++ b) := by
  induction ha with
  | nil => simpa using hb
  | raw c cs h1 h2 h3 _ ih => exact JStr.raw c _ h1 h2 h3 ih
  | esc c cs h _ ih => exact JStr.esc c _ h ih
  | uni h1 h2 h3 h4 cs e1 e2 e3 e4 _ ih => exact JStr.uni h1 h2 h3 h4 _ e1 e2 e3 e4 ih

/-- Each hexadecimal digit character is one. -/
theorem hexDigit_hex (n : Nat) (h : n < 16) : isHexChar (hexDigit n) = true := by
  interval_cases n <;> decide

/-- A `\uXXXX` escape prepended to a valid string body is valid. -/
theorem uEsc_JStr (n : Nat) {cs : List Char} (h : JStr cs) : JStr (uEsc n ++ cs) := by
  have h16 : (0 : Nat) < 16 := by norm_num
  exact JStr.uni _ _ _ _ cs
    (hexDigit_hex _ (Nat.mod_lt _ h16)) (hexDigit_hex _ (Nat.mod_lt _ h16))
    (hexDigit_hex _ (Nat.mod_lt _ h16)) (hexDigit_hex _ (Nat.mod_lt _ h16)) h

/-- The four shapes `escChar` can output: a short escape, the raw
character (printable ASCII, not quote or backslash), a `\uXXXX` escape, or
a surrogate pair of two `\uXXXX` escapes. -/
theorem escChar_cases (c : Char) :
    (∃ e, escChar c = ['\\', e] ∧
      (e = '"' ∨ e = '\\' ∨ e = '/' ∨ e = 'b' ∨ e = 'f' ∨ e = 'n' ∨ e = 'r' ∨ e = 't')) ∨
    (escChar c = [c] ∧ 32 ≤ c.toNat ∧ c ≠ '"' ∧ c ≠ '\\' ∧ c ≠ '\n') ∨
    (∃ n, escChar c = uEsc n) ∨
    (∃ n m, escChar c = uEsc n ++ uEsc m) := by
  unfold escChar
  by_cases h1 : c = '"'
  · simp only [if_pos h1]
    exact Or.inl ⟨'"', rfl, Or.inl rfl⟩
  simp only [if_neg h1]
  by_cases h2 : c = '\\'
  · simp only [if_pos h2]
    exact Or.inl ⟨'\\', rfl, Or.inr (Or.inl rfl)⟩
  simp only [if_neg h2]
  by_cases h3 : c = '\n'
  · simp only [if_pos h3]
    exact Or.inl ⟨'n', rfl, by simp⟩
  simp only [if_neg h3]
  by_cases h4 : c = '\r'
  · simp only [if_pos h4]
    exact Or.inl ⟨'r', rfl, by simp⟩
  simp only [if_neg h4]
  by_cases h5 : c = '\t'
  · simp only [if_pos h5]
    exact Or.inl ⟨'t', rfl, by simp⟩
  simp only [if_neg h5]
  by_cases h6 : c.toNat = 8
  · simp only [if_pos h6]
    exact Or.inl ⟨'b', rfl, by simp⟩
  simp only [if_neg h6]
  by_cases h7 : c.toNat = 12
  · simp only [if_pos h7]
    exact Or.inl ⟨'f', rfl, by simp⟩
  simp only [if_neg h7]
  by_cases h8 : c.toNat < 32
  · simp only [if_pos h8]
    exact Or.inr (Or.inr (Or.inl ⟨_, rfl⟩))
  simp only [if_neg h8]
  by_cases h9 : c.toNat < 127
  · simp only [if_pos h9]
    exact Or.inr (Or.inl ⟨by simp, by omega, h1, h2, h3⟩)
  simp only [if_neg h9]
  by_cases h10 : c.toNat < 65536
  · simp only [if_pos h10]
    exact Or.inr (Or.inr (Or.inl ⟨_, rfl⟩))
  · simp only [if_neg h10]
    exact Or.inr (Or.inr (Or.inr ⟨_, _, rfl⟩))

/-- The escape of one character prepended to a valid string body is valid. -/
theorem escChar_JStr (c : Char) {cs : List Char} (h : JStr cs) :
    JStr (escChar c ++ cs) := by
  rcases escChar_cases c with ⟨e, he, hor⟩ | ⟨he, hge, hq, hb, _⟩ | ⟨n, he⟩ | ⟨n, m, he⟩
  · rw [he]
    exact JStr.esc e cs hor h
  · rw [he]
    exact JStr.raw c cs hge hq hb h
  · rw [he]
    exact uEsc_JStr n h
  · rw [he, List.append_assoc]
    exact uEsc_JStr n (uEsc_JStr m h)

/-- The escaped form of any character list is a valid string body. -/
theorem escList_JStr (l : List Char) : JStr (escList l) := by
  induction l with
  | nil => exact JStr.nil
  | cons c cs ih => exact escChar_JStr c ih

/-- A serialized string is a JSON value. -/
theorem renderString_JVal (s : String) : JVal (renderString s) :=
  JVal.str _ (escList_JStr s.data)

/-- A serialized atom is a JSON value. -/
theorem renderAtom_JVal (v : Option String) : JVal (renderAtom v) := by
  cases v with
  | none => exact JVal.null
  | some s => exact renderString_JVal s

/-- A non-empty comma-join of JSON values is a JSON item sequence. -/
theorem joinComma_JItems (ls : List (List Char)) (hne : ls ≠ [])
    (h : ∀ l ∈ ls, JVal l) : JItems (joinComma ls) := by
  induction ls with
  | nil => exact absurd rfl hne
  | cons x xs ih =>
    cases xs with
    | nil => exact JItems.single x (h x (by simp))
    | cons y ys =>
      have hx : JVal x := h x (by simp)
      have hrest : JItems (joinComma (y :: ys)) :=
        ih (by simp) (fun l hl => h l (by simp [hl]))
      exact JItems.cons x _ hx hrest

/-- A serialized list of strings is a JSON value. -/
theorem renderStrList_JVal (xs : List String) : JVal (renderStrList xs) := by
  cases xs with
  | nil => exact JVal.arrEmpty
  | cons x xs =>
    exact JVal.arr _ (joinComma_JItems _ (by simp)
      (by
        rintro l hl
        simp only [List.mem_map] at hl
        obtain ⟨s, _, rfl⟩ := hl
        exact renderString_JVal s))

/-- A rendered member is quote, escaped key, quote, colon, space, value. -/
theorem renderMember_eq (k : String) (v : List Char) :
    renderMember k v = '"' :: escList k.data ++ '"' :: ':' :: ' ' :: v := by
  simp [renderMember, renderString, List.append_assoc]

/-- A non-empty comma-join of rendered members is a JSON member sequence. -/
theorem joinComma_JMembs (ms : List (List Char)) (hne : ms ≠ [])
    (h : ∀ x ∈ ms, ∃ k v, x = renderMember k v ∧ JVal v) :
    JMembs (joinComma ms) := by
  induction ms with
  | nil => exact absurd rfl hne
  | cons x xs ih =>
    obtain ⟨k, v, hx, hv⟩ := h x (by simp)
    subst hx
    cases xs with
    | nil =>
      rw [renderMember_eq]
      exact JMembs.single _ _ (escList_JStr k.data) hv
    | cons y ys =>
      have hrest : JMembs (joinComma (y :: ys)) :=
        ih (by simp) (fun l hl => h l (by simp [hl]))
      have : joinComma (renderMember k v :: y :: ys) =
          '"' :: escList k.data ++ '"' :: ':' :: ' ' :: v ++ ',' :: ' ' ::
            joinComma (y :: ys) := by
        rw [joinComma, renderMember_eq]
        simp [List.append_assoc]
      rw [this]
      exact JMembs.cons _ _ _ (escList_JStr k.data) hv hrest

/-- A serialized string-keyed object of atoms is a JSON value. -/
theorem renderObj_JVal (kvs : List (String × Option String)) :
    JVal (renderObj kvs) := by
  cases kvs with
  | nil => exact JVal.objEmpty
  | cons kv rest =>
    refine JVal.obj _ (joinComma_JMembs _ (by simp) ?_)
    rintro l hl
    simp only [List.mem_map] at hl
    obtain ⟨p, _, rfl⟩ := hl
    exact ⟨p.1, renderAtom p.2, rfl, renderAtom_JVal p.2⟩

/-- The serialized record is a `{...}` object whose member sequence is a
word of the grammar. -/
theorem json_dumps_info_JMembs (r : LogRecord) :
    JMembs (joinComma ((recordMembers r).map (fun kv => renderMember kv.1 kv.2))) := by
  refine joinComma_JMembs _ (by simp [recordMembers]) ?_
  rintro l hl
  simp only [recordMembers, List.map_cons, List.map_nil, List.mem_cons,
    List.not_mem_nil, or_false] at hl
  rcases hl with rfl | rfl | rfl | rfl | rfl
  · exact ⟨_, _, rfl, renderString_JVal _⟩
  · exact ⟨_, _, rfl, renderString_JVal _⟩
  · exact ⟨_, _, rfl, renderStrList_JVal _⟩
  · exact ⟨_, _, rfl, renderObj_JVal _⟩
  · exact ⟨_, _, rfl, renderObj_JVal _⟩

/-- The serialized record is a single JSON value. -/
theorem json_dumps_info_JVal (r : LogRecord) : JVal (json_dumps_info r) :=
  JVal.obj _ (json_dumps_info_JMembs r)

/-! ### Lemmas: the serialization emits no newline -/

/-- Hexadecimal digit characters are never a newline. -/
theorem hexDigit_ne_nl (n : Nat) (h : n < 16) : hexDigit n ≠ '\n' := by
  interval_cases n <;> decide

/-- A `\uXXXX` escape contains no newline. -/
theorem uEsc_noNL (n : Nat) : '\n' ∉ uEsc n := by
  have h16 : (0 : Nat) < 16 := by norm_num
  simp only [uEsc, hex4, List.mem_cons, List.not_mem_nil, or_false]
  push_neg
  refine ⟨by decide, by decide, ?_, ?_, ?_, ?_⟩ <;>
    exact fun he => hexDigit_ne_nl _ (Nat.mod_lt _ h16) he.symm

/-- The escape of one character contains no newline. -/
theorem escChar_noNL (c : Char) : '\n' ∉ escChar c := by
  rcases escChar_cases c with ⟨e, he, hor⟩ | ⟨he, _, _, _, hn⟩ | ⟨n, he⟩ | ⟨n, m, he⟩
  · rw [he]
    intro hm
    simp only [List.mem_cons, List.mem_singleton, List.not_mem_nil, or_false] at hm
    rcases hm with hm | hm
    · exact absurd hm (by decide)
    · rcases hor with rfl | rfl | rfl | rfl | rfl | rfl | rfl | rfl <;>
        exact absurd hm (by decide)
  · rw [he]
    intro hm
    simp only [List.mem_singleton] at hm
    exact hn hm.symm
  · rw [he]
    exact uEsc_noNL n
  · rw [he]
    intro hm
    rcases List.mem_append.mp hm with hm | hm
    · exact uEsc_noNL n hm
    · exact uEsc_noNL m hm

/-- The escaped form of any character list contains no newline. -/
theorem escList_noNL (l : List Char) : '\n' ∉ escList l := by
  induction l with
  | nil => simp [escList]
  | cons c cs ih =>
    simp only [escList]
    intro hm
    rcases List.mem_append.mp hm with hm | hm
    · exact escChar_noNL c hm
    · exact ih hm

/-- A serialized string contains no newline. -/
theorem renderString_noNL (s : String) : '\n' ∉ renderString s := by
  intro hm
  simp only [renderString] at hm
  rcases List.mem_append.mp hm with hm | hm
  · rcases List.mem_cons.mp hm with hm | hm
    · exact absurd hm (by decide)
    · exact escList_noNL s.data hm
  · exact absurd hm (by decide)

/-- A serialized atom contains no newline. -/
theorem renderAtom_noNL (v : Option String) : '\n' ∉ renderAtom v := by
  cases v with
  | none => decide
  | some s => exact renderString_noNL s

/-- A comma-join of newline-free pieces is newline-free. -/
theorem joinComma_noNL (ls : List (List Char)) (h : ∀ l ∈ ls, '\n' ∉ l) :
    '\n' ∉ joinComma ls := by
  induction ls with
  | nil => simp [joinComma]
  | cons x xs ih =>
    cases xs with
    | nil => exact h x (by simp)
    | cons y ys =>
      simp only [joinComma]
      intro hm
      rcases List.mem_append.mp hm with hm | hm
      · exact h x (by simp) hm
      · simp only [List.mem_cons] at hm
        rcases hm with hm | hm | hm
        · exact absurd hm (by decide)
        · exact absurd hm (by decide)
        · exact ih (fun l hl => h l (by simp [hl])) hm

/-- A rendered member with a newline-free value is newline-free. -/
theorem renderMember_noNL (k : String) (v : List Char) (hv : '\n' ∉ v) :
    '\n' ∉ renderMember k v := by
  simp only [renderMember]
  intro hm
  rcases List.mem_append.mp hm with hm | hm
  · exact renderString_noNL k hm
  · simp only [List.mem_cons] at hm
    rcases hm with hm | hm | hm
    · exact absurd hm (by decide)
    · exact absurd hm (by decide)
    · exact hv hm

/-- A serialized list of strings contains no newline. -/
theorem renderStrList_noNL (xs : List String) : '\n' ∉ renderStrList xs := by
  intro hm
  simp only [renderStrList] at hm
  rcases List.mem_append.mp hm with hm | hm
  · rcases List.mem_cons.mp hm with hm | hm
    · exact absurd hm (by decide)
    · refine joinComma_noNL _ ?_ hm
      rintro l hl
      simp only [List.mem_map] at hl
      obtain ⟨s, _, rfl⟩ := hl
      exact renderString_noNL s
  · exact absurd hm (by decide)

/-- A serialized object of atoms contains no newline. -/
theorem renderObj_noNL (kvs : List (String × Option String)) :
    '\n' ∉ renderObj kvs := by
  intro hm
  simp only [renderObj] at hm
  rcases List.mem_append.mp hm with hm | hm
  · rcases List.mem_cons.mp hm with hm | hm
    · exact absurd hm (by decide)
    · refine joinComma_noNL _ ?_ hm
      rintro l hl
      simp only [List.mem_map] at hl
      obtain ⟨p, _, rfl⟩ := hl
      exact renderMember_noNL p.1 _ (renderAtom_noNL p.2)
  · exact absurd hm (by decide)

/-- The serialized record contains no newline character: the single
terminating newline the handler appends is the only one in the file. -/
theorem json_dumps_info_noNL (r : LogRecord) : '\n' ∉ json_dumps_info r := by
  intro hm
  simp only [json_dumps_info] at hm
  rcases List.mem_append.mp hm with hm | hm
  · rcases List.mem_cons.mp hm with hm | hm
    · exact absurd hm (by decide)
    · refine joinComma_noNL _ ?_ hm
      rintro l hl
      simp only [recordMembers, List.map_cons, List.map_nil, List.mem_cons,
        List.not_mem_nil, or_false] at hl
      rcases hl with rfl | rfl | rfl | rfl | rfl
      · exact renderMember_noNL _ _ (renderString_noNL _)
      · exact renderMember_noNL _ _ (renderString_noNL _)
      · exact renderMember_noNL _ _ (renderStrList_noNL _)
      · exact renderMember_noNL _ _ (renderObj_noNL _)
      · exact renderMember_noNL _ _ (renderObj_noNL _)
  · exact absurd hm (by decide)

/-! ### Claims -/

/-- C1: whenever the disable toggle `DISABLE_PYMODULE_SNOOP` holds a truthy
value — in the environment at import time, or in the environment the
shutdown callback sees — the collector performs no side effect at all: the
import-time check (line 100) prevents registration, and the callback-time
check (line 89) returns before the umask change, the directory creation and
the file creation, so the trace of effects is empty and no error arises. -/
theorem c1_disable_toggle_no_effects (envI : Env) (st : ProcState) (fs : FS) :
    (snoopDisabled envI = true → registersAtImport envI = false) ∧
    (snoopDisabled st.env = true → inspect_and_log st fs = ([], none)) := by
  constructor
  · intro h
    simp [registersAtImport, h]
  · intro h
    by_cases hm : is_mpi_rank_nonzero st.mpi <;>
      simp [inspect_and_log, hm, h]

/-- C1 witness: with the toggle set to `"1"` no registration happens, and a
callback running with the toggle set performs no effect and raises nothing. -/
theorem c1_witness :
    registersAtImport [("DISABLE_PYMODULE_SNOOP", "1")] = false ∧
    inspect_and_log disabledState okFS = ([], none) :=
  ⟨(c1_disable_toggle_no_effects [("DISABLE_PYMODULE_SNOOP", "1")] disabledState okFS).1
      (by decide),
   (c1_disable_toggle_no_effects [("DISABLE_PYMODULE_SNOOP", "1")] disabledState okFS).2
      (by decide)⟩

/-- C2: `is_mpi_rank_nonzero` returns `false` (rank-0 behaviour: do not
skip logging) when the mpi4py module is not among the loaded modules, when
the MPI runtime reports it has been finalized, and when it reports it has
not been initialized.  The embedding is a total function, so no exception
is possible: the source guards its only fallible accesses (`in sys.modules`
and `hasattr`) before using them. -/
theorem c2_rank_detection_failsafe (s : MPIState) :
    (s.mpi4pyLoaded = false → is_mpi_rank_nonzero s = false) ∧
    (s.runtime.finalized = true → is_mpi_rank_nonzero s = false) ∧
    (s.runtime.isInit = false → is_mpi_rank_nonzero s = false) := by
  obtain ⟨l, a, f, i, r⟩ := s
  cases l <;> cases a <;> cases f <;> cases i <;>
    simp [is_mpi_rank_nonzero]

/-- C2 witness: mpi4py absent yields `false` at a concrete state. -/
theorem c2_witness : is_mpi_rank_nonzero mpiAbsent = false :=
  (c2_rank_detection_failsafe mpiAbsent).1 rfl

/-- C3 counterexample: the claim says the permission mask leaves every
created directory and file *other*-writable, but the mask `0o002` clears
exactly the other-write bit: directories are created mode `0o775` and
files mode `0o664`, neither of which has the other-write bit. -/
theorem c3_counterexample :
    dirMode &&& otherWriteBit = 0 ∧ fileMode &&& otherWriteBit = 0 := by decide

/-- C3 amended: under the mask `0o002` set on line 91, every directory and
file the collector creates is group-writable, but not other-writable: every
creation effect in every trace of `inspect_and_log` carries mode `0o775`
(directories) or `0o664` (files), each with the group-write bit set and the
other-write bit clear. -/
theorem c3_umask_group_writable (st : ProcState) (fs : FS) :
    dirMode = 0o775 ∧ fileMode = 0o664 ∧
    ((creationModes (inspect_and_log st fs).1).all
      (fun m => (m &&& groupWriteBit == groupWriteBit) &&
                (m &&& otherWriteBit == 0))) = true := by
  refine ⟨by decide, by decide, ?_⟩
  simp only [inspect_and_log]
  split
  · rfl
  · split
    · rfl
    · split
      · rfl
      · split
        · rfl
        · rfl

/-- C4 counterexample: the claim says a module whose `__file__` attribute
exists but holds `None` is excluded from the inventory; the comprehension's
test is attribute presence only, so such a module is included, mapped to
`None` (serialized as JSON `null`). -/
theorem c4_counterexample :
    modules_dict [("nspkg", { file := some none })] ≠ [] ∧
    ("nspkg", (none : Option String)) ∈
      modules_dict [("nspkg", { file := some none })] := by
  constructor
  · decide
  · decide

/-- C4 amended: the inventory contains exactly those module names whose
module *has* a `__file__` attribute, each mapped to that attribute's exact
value — including the value `None` (namespace packages) and the empty
string; only modules lacking the attribute (e.g. built-ins) are excluded. -/
theorem c4_inventory_membership (mods : List (String × PyModule)) (n : String)
    (v : Option String) :
    (n, v) ∈ modules_dict mods ↔ ∃ m : PyModule, (n, m) ∈ mods ∧ m.file = some v := by
  simp only [modules_dict, List.mem_filterMap, Option.map_eq_some']
  constructor
  · rintro ⟨⟨n', m⟩, hmem, v', hv, heq⟩
    cases heq
    exact ⟨m, hmem, hv⟩
  · rintro ⟨m, hmem, hv⟩
    exact ⟨(n, m), hmem, v, hv, rfl⟩

/-- C4 witness: at the sample state, the entry-point module is included
with its exact path and the attribute-less module is not in the inventory. -/
theorem c4_witness :
    ("__main__", some "/home/u\ns\"er/main.py") ∈ modules_dict sampleState.modules :=
  (c4_inventory_membership sampleState.modules "__main__"
      (some "/home/u\ns\"er/main.py")).mpr
    ⟨{ file := some (some "/home/u\ns\"er/main.py") }, by decide, rfl⟩

/-- C5 counterexample: the claim asserts the layout
`<log root>/<y>/<m>/<d>/<job id>/<fname>` for *every* environment, with the
job id verbatim.  `os.path.join` restarts at an absolute component, so
`COBALT_JOBID='/evil'` yields the path `/evil/<fname>` — the log root and
date segments are discarded; and with `COBALT_JOBID=''` the join inserts no
separator after the trailing slash, so the job segment vanishes instead of
producing the claimed `<...>/1//<fname>`. -/
theorem c5_counterexample :
    log_path ⟨2024, 3, 1, 10, 15, 22, 123456⟩ [("COBALT_JOBID", "/evil")] "node07" 4242 =
      "/evil/node07.4242.10.15.22.123456" ∧
    log_path ⟨2024, 3, 1, 10, 15, 22, 123456⟩ [("COBALT_JOBID", "/evil")] "node07" 4242 ≠
      specLogPath LOGFILE_ROOT ⟨2024, 3, 1, 10, 15, 22, 123456⟩ "/evil" "node07" 4242 ∧
    log_path ⟨2024, 3, 1, 10, 15, 22, 123456⟩ [("COBALT_JOBID", "")] "node07" 4242 =
      "/projects/datascience/PyModuleSnooper/log/2024/3/1/node07.4242.10.15.22.123456" ∧
    log_path ⟨2024, 3, 1, 10, 15, 22, 123456⟩ [("COBALT_JOBID", "")] "node07" 4242 ≠
      specLogPath LOGFILE_ROOT ⟨2024, 3, 1, 10, 15, 22, 123456⟩ "" "node07" 4242 := by
  refine ⟨by decide, by decide, by decide, by decide⟩

/-- C5 amended: the job id is the value of `COBALT_JOBID` verbatim when
set and the literal string `"no-ID"` when absent; and whenever that job id
is relative (does not start with `/`), does not end with `/` and is
non-empty — every ordinary scheduler id and the `"no-ID"` placeholder
qualify — and the hostname does not start with `/`, the destination equals
`<log root>/<year>/<month>/<day>/<job id>/<hostname>.<pid>.<HH.MM.SS.microseconds>`
with unpadded numeric year/month/day and `.` joining the filename's
fields.  (An absolute job id restarts the path at the job id; an empty one
drops the segment — see the counterexample.) -/
theorem c5_log_path_layout (t : Timestamp) (env : Env) (host : String) (pid : Nat) :
    (∀ v, envGet env "COBALT_JOBID" = some v → job_id env = v) ∧
    (envGet env "COBALT_JOBID" = none → job_id env = "no-ID") ∧
    (pyStartsWith (job_id env) "/" = false →
     pyEndsWith (job_id env) "/" = false →
     (job_id env == "") = false →
     pyStartsWith host "/" = false →
      log_path t env host pid = specLogPath LOGFILE_ROOT t (job_id env) host pid) := by
  refine ⟨fun v hv => by simp [job_id, hv], fun hv => by simp [job_id, hv],
    fun h1 h2 h3 h4 => ?_⟩
  have hjd : (job_id env).data ≠ [] := data_ne_nil_of_beq_empty h3
  have hdir : pyEndsWith (log_dir t env) "/" = false := by
    rw [log_dir_eq t env h1, pyEndsWith_append_slash _ _ hjd]
    exact h2
  have hdirne : (log_dir t env == "") = false := by
    refine beq_empty_false_of_data ?_
    rw [log_dir_eq t env h1, String.data_append]
    exact List.append_ne_nil_of_right_ne_nil _ hjd
  have hstep : log_path t env host pid =
      log_dir t env ++ "/" ++ fname host pid t :=
    ospath_join_normal _ _ (fname_not_abs host pid t h4) hdirne hdir
  rw [hstep, log_dir_eq t env h1]
  simp [specLogPath, fname, strftime_hms, String.append_assoc]

/-- C5 witness: the spec's example scenario — job id `12345`, host
`node07`, pid 4242, 2024-03-01 10:15:22.123456 — yields the expected path,
with unpadded month `3` and day `1`. -/
theorem c5_witness :
    log_path sampleState.time sampleState.env sampleState.hostname sampleState.pid =
      "/projects/datascience/PyModuleSnooper/log/2024/3/1/12345/node07.4242.10.15.22.123456" := by
  have h := (c5_log_path_layout sampleState.time sampleState.env
      sampleState.hostname sampleState.pid).2.2 (by decide) (by decide)
      (by decide) (by decide)
  rw [h]
  decide

/-- C6 counterexample: the claim says no filesystem error escalates out of
the collector; but `inspect_and_log` installs no handler, so at a state
where `os.makedirs` raises (e.g. an unwritable log root) the exception
propagates to the caller. -/
theorem c6_counterexample :
    (inspect_and_log sampleState makedirsFailFS).2 =
      some (PyError.osError (log_dir sampleState.time sampleState.env)) := by
  decide

/-- C6 amended: `inspect_and_log` completes without raising whenever the
directory creation and the file open succeed; when one of them fails the
exception propagates to the caller — the atexit machinery, which confines
it, not the collector itself.  (An escaping error occurs *only* for such a
filesystem failure.) -/
theorem c6_error_propagation (st : ProcState) (fs : FS) :
    (fs.makedirsFails (log_dir st.time st.env) = false ∧
     fs.openFails (log_path st.time st.env st.hostname st.pid) = false →
      (inspect_and_log st fs).2 = none) ∧
    ((inspect_and_log st fs).2 ≠ none →
      fs.makedirsFails (log_dir st.time st.env) = true ∨
      fs.openFails (log_path st.time st.env st.hostname st.pid) = true) := by
  by_cases hm : is_mpi_rank_nonzero st.mpi
  · simp [inspect_and_log, hm]
  · by_cases hd : snoopDisabled st.env
    · simp [inspect_and_log, hm, hd]
    · by_cases h1 : fs.makedirsFails (log_dir st.time st.env)
      · simp [inspect_and_log, hm, hd, h1]
      · by_cases h2 : fs.openFails (log_path st.time st.env st.hostname st.pid)
        · simp [inspect_and_log, hm, hd, h1, h2]
        · simp [inspect_and_log, hm, hd, h1, h2]

/-- C7: the `cobalt_envs` field contains exactly those environment
variables whose names start with the prefix `COBALT`, each mapped to its
value; every other variable is excluded. -/
theorem c7_env_filter (env : Env) (k v : String) :
    (k, v) ∈ cobalt_envs env ↔ (k, v) ∈ env ∧ pyStartsWith k "COBALT" = true := by
  simp [cobalt_envs, List.mem_filter]

/-- C7 witness: at the sample environment, `COBALT_JOBID` is kept and
`PATH` is excluded. -/
theorem c7_witness :
    ("COBALT_JOBID", "12345") ∈ cobalt_envs sampleState.env ∧
    ¬ ("PATH", "/usr/bin") ∈ cobalt_envs sampleState.env :=
  ⟨(c7_env_filter sampleState.env "COBALT_JOBID" "12345").mpr ⟨by decide, by decide⟩,
   fun h => by
    have h2 := ((c7_env_filter sampleState.env "PATH" "/usr/bin").mp h).2
    exact absurd h2 (by decide)⟩

/-- C9: in every invocation of the collector, every directory-creating and
file-creating effect in the trace is preceded by the umask change: no
`makedirs` and no log-file open occurs before `setUmask` in the sequence of
effects (vacuously so for suppressed invocations, whose trace is empty). -/
theorem c9_umask_before_creation (st : ProcState) (fs : FS) :
    creationsAfterUmask false (inspect_and_log st fs).1 = true := by
  simp only [inspect_and_log]
  split
  · rfl
  · split
    · rfl
    · split
      · rfl
      · split
        · rfl
        · rfl

/-- C10: truthiness of the disable toggle is string non-emptiness at both
check sites.  If `DISABLE_PYMODULE_SNOOP` is set to the empty string, both
the import-time check and the callback-time check treat it as unset: the
callback registers and, absent other suppression, proceeds past the checks
and performs effects.  Any non-empty value — `"0"` and `"false"` included —
prevents registration and makes the callback a no-op. -/
theorem c10_toggle_truthiness (st : ProcState) (fs : FS) (v : String) :
    (envGet st.env "DISABLE_PYMODULE_SNOOP" = some v →
      (v = "" → registersAtImport st.env = true ∧
        (is_mpi_rank_nonzero st.mpi = false → (inspect_and_log st fs).1 ≠ [])) ∧
      (v ≠ "" → registersAtImport st.env = false ∧
        inspect_and_log st fs = ([], none))) := by
  intro hv
  have hd : snoopDisabled st.env = (v != "") := by
    simp [snoopDisabled, hv]
  constructor
  · intro he
    subst he
    have hd' : snoopDisabled st.env = false := by simpa using hd
    refine ⟨by simp [registersAtImport, hd'], fun hm => ?_⟩
    by_cases h1 : fs.makedirsFails (log_dir st.time st.env) <;>
      by_cases h2 : fs.openFails (log_path st.time st.env st.hostname st.pid) <;>
        simp [inspect_and_log, hm, hd', h1, h2]
  · intro hne
    have hd' : snoopDisabled st.env = true := by
      rw [hd]
      simpa using hne
    refine ⟨by simp [registersAtImport, hd'], ?_⟩
    by_cases hm : is_mpi_rank_nonzero st.mpi <;> simp [inspect_and_log, hm, hd']

/-- C8: in every non-suppressed, non-failing invocation, exactly one write
occurs, and its content is the serialization of the single merged JSON
object (the metadata fields plus the `modules` mapping) followed by one
terminating newline.  The serialized object is a word of the JSON grammar
(`JVal`) — hence parseable by a standard JSON parser, with no surrounding
array and no trailing data — it is a `{...}` object, and it contains no raw
newline even when module paths, search-path entries or environment values
do: every such character is escaped. -/
theorem c8_single_line_json (st : ProcState) (fs : FS) :
    (is_mpi_rank_nonzero st.mpi = false → snoopDisabled st.env = false →
     fs.makedirsFails (log_dir st.time st.env) = false →
     fs.openFails (log_path st.time st.env st.hostname st.pid) = false →
      writesOf (inspect_and_log st fs).1 =
        [(log_path st.time st.env st.hostname st.pid, logLine st)]) ∧
    logLine st = ⟨json_dumps_info (infoRecord st) ++ ['\n']⟩ ∧
    JVal (json_dumps_info (infoRecord st)) ∧
    (∃ ms, json_dumps_info (infoRecord st) = '{' :: ms ++ ['}'] ∧ JMembs ms) ∧
    '\n' ∉ json_dumps_info (infoRecord st) := by
  refine ⟨fun hm hd h1 h2 => ?_, rfl, json_dumps_info_JVal _,
    ⟨_, rfl, json_dumps_info_JMembs _⟩, json_dumps_info_noNL _⟩
  simp [inspect_and_log, hm, hd, h1, h2, writesOf]

/-- C8 witness: at the sample state — whose `__main__` module path contains
a newline and a quote — the single write's content is the serialized record
plus one newline, and the record is a JSON value. -/
theorem c8_witness :
    writesOf (inspect_and_log sampleState okFS).1 =
      [(log_path sampleState.time sampleState.env sampleState.hostname
          sampleState.pid, logLine sampleState)] ∧
    JVal (json_dumps_info (infoRecord sampleState)) ∧
    '\n' ∉ json_dumps_info (infoRecord sampleState) :=
  ⟨(c8_single_line_json sampleState okFS).1 rfl rfl rfl rfl,
   (c8_single_line_json sampleState okFS).2.2.1,
   (c8_single_line_json sampleState okFS).2.2.2.2⟩

/-- C10 witness: the empty string proceeds (non-empty trace), the string
`"0"` suppresses (no registration, empty trace, no error). -/
theorem c10_witness :
    (inspect_and_log emptyToggleState okFS).1 ≠ [] ∧
    registersAtImport disabledState.env = false ∧
    inspect_and_log disabledState okFS = ([], none) :=
  ⟨((c10_toggle_truthiness emptyToggleState okFS "" (by decide)).1 rfl).2 (by decide),
   ((c10_toggle_truthiness disabledState okFS "0" (by decide)).2 (by decide)).1,
   ((c10_toggle_truthiness disabledState okFS "0" (by decide)).2 (by decide)).2⟩

end PyModuleSnooper
